import Mathlib

/-!
Verification of the path-building facade (`Drawing` class, src/main.js) as a
shallow embedding: the mutable instance state becomes `DState`, and every
command issued to the underlying 2D surface context is appended to the `out`
log, in issue order.  Coordinates are modelled as rationals; the surface-level
constant `Tau = 2 * Math.PI` and the trigonometric functions used by `ellipse`
are carried as parameters, since their values never influence the control flow
properties proved here.
-/

namespace Zu

/-- A position `{x, y}` as stored in `this.pos`. -/
structure Pos where
  x : ℚ
  y : ℚ
deriving DecidableEq

/-- The mutable `this.textStyle` bag: `font`, `textAlign`, `textBaseline`. -/
structure TextStyle where
  font : Option String := none
  textAlign : Option String := none
  textBaseline : Option String := none
deriving DecidableEq

/-- The closure stored in `this.drawCurve`, made first-order: `arcTo` stores
the control point and radius, `curve` stores one or two control points. -/
inductive CurveKind where
  | arcToK (cx cy r : ℚ)
  | quadK (cx cy : ℚ)
  | cubicK (c1x c1y c2x c2y : ℚ)
deriving DecidableEq

/-- One command issued to the canvas context (the Surface). -/
inductive Cmd where
  | beginPath
  | moveTo (x y : ℚ)
  | lineTo (x y : ℚ)
  | quadraticCurveTo (cx cy x y : ℚ)
  | bezierCurveTo (c1x c1y c2x c2y x y : ℚ)
  | arcTo (cx cy x y r : ℚ)
  | closePath
  | rect (x y w h : ℚ)
  | arc (x y r a1 a2 : ℚ) (acw : Bool)
  | ellipse (x y rx ry rot a1 a2 : ℚ) (acw : Bool)
  | stroke
  | fill (rule : Option String)
  | strokeText (str : String) (x y : ℚ)
  | fillText (str : String) (x y : ℚ)
  | assignStyle (st : TextStyle)
  | setLineWidth (w : ℚ)
  | setStrokeStyle (c : String)
  | setFillStyle (c : String)
deriving DecidableEq

/-- Invoking the stored `drawCurve` closure with the end point `(x, y)`:
`this._.arcTo(cx, cy, x, y, r)`, `this._.quadraticCurveTo(cx, cy, x, y)` or
`this._.bezierCurveTo(c1x, c1y, c2x, c2y, x, y)`. -/
def runCurve : CurveKind → ℚ → ℚ → Cmd
  | .arcToK cx cy r, x, y => .arcTo cx cy x y r
  | .quadK cx cy, x, y => .quadraticCurveTo cx cy x y
  | .cubicK c1x c1y c2x c2y, x, y => .bezierCurveTo c1x c1y c2x c2y x y

/-- The state of one `Drawing` instance plus the log `out` of every command
issued so far to the wrapped context. -/
structure DState where
  pos : Pos
  posDrawn : Bool
  posStart : Option Pos
  pendingText : List (String × Pos × TextStyle)
  textStyle : TextStyle
  pendingPathClose : Bool
  drawCurve : Option CurveKind
  out : List Cmd

/-- The constructor state: `pos = (0,0)`, `posDrawn = true`, everything else
empty or false, nothing emitted. -/
def initState : DState :=
  { pos := ⟨0, 0⟩, posDrawn := true, posStart := none, pendingText := []
    textStyle := {}, pendingPathClose := false, drawCurve := none, out := [] }

/-- Issue one command to the context. -/
def emit (s : DState) (c : Cmd) : DState :=
  { s with out := s.out ++ [c] }

/-- JS truthiness of an optional string argument (`undefined` and the empty
string are falsy). -/
def strTruthy : Option String → Bool
  | some c => c != ""
  | none => false

/-- JS `a || d` for an optional string argument. -/
def orDefault (v : Option String) (d : String) : String :=
  match v with
  | some a => if a != "" then a else d
  | none => d

/-- `_advancePath(x, y)`: if the current position is not yet drawn, push it —
as a move (also recording `posStart`) when no subpath is open, as a line
otherwise; then record the new position when both coordinates are given,
else mark the position drawn. -/
def advancePath (ox oy : Option ℚ) (s : DState) : DState :=
  let s1 :=
    if s.posDrawn then s
    else
      match s.posStart with
      | none => { emit s (Cmd.moveTo s.pos.x s.pos.y) with posStart := some s.pos }
      | some _ => emit s (Cmd.lineTo s.pos.x s.pos.y)
  match ox, oy with
  | some a, some b => { s1 with pos := ⟨a, b⟩, posDrawn := false }
  | _, _ => { s1 with posDrawn := true }

/-- `_checkPathClose()`: when a stroke or fill has run, drop the queued text,
begin a new context path and clear the subpath start. -/
def checkPathClose (s : DState) : DState :=
  if s.pendingPathClose then
    { emit s Cmd.beginPath with pendingPathClose := false, pendingText := [], posStart := none }
  else s

/-- `xy(x, y)` with numeric arguments: reset check, advance the path, then
consume a deferred curve (invoked with the new position) if one is stored. -/
def xy (a b : ℚ) (s : DState) : DState :=
  let s1 := checkPathClose s
  let s2 := advancePath (some a) (some b) s1
  match s2.drawCurve with
  | some k => { emit s2 (runCurve k s2.pos.x s2.pos.y) with drawCurve := none }
  | none => s2

/-- `close()`: reset check; flush; if a subpath is open, add its start point
through `xy`, flush again and clear `posStart`; then `closePath()`. -/
def close (s : DState) : DState :=
  let s1 := checkPathClose s
  let s2 := advancePath none none s1
  let s3 :=
    match s2.posStart with
    | some p =>
        let t1 := xy p.x p.y s2
        let t2 := advancePath none none t1
        { t2 with posStart := none }
    | none => s2
  emit s3 Cmd.closePath

/-- `rect(width, height, centered)`. -/
def rect (width height : ℚ) (centered : Bool) (s : DState) : DState :=
  let s1 := checkPathClose s
  let s2 := emit s1 (Cmd.rect
    (if centered then s1.pos.x - width / 2 else s1.pos.x)
    (if centered then s1.pos.y - height / 2 else s1.pos.y)
    width height)
  { s2 with posDrawn := true }

/-- `square(size, centered)`. -/
def square (size : ℚ) (centered : Bool) (s : DState) : DState :=
  rect size size centered s

/-- `arc(radius, startAngle, endAngle, anticlockwise)`. -/
def arc (radius startAngle endAngle : ℚ) (acw : Bool) (s : DState) : DState :=
  let s1 := checkPathClose s
  let s2 := emit s1 (Cmd.arc s1.pos.x s1.pos.y radius startAngle endAngle acw)
  { s2 with posDrawn := true }

/-- `circle(radius)`: a context `moveTo` to the arc start, then `arc` for a
full turn, then `posStart = null`.  Note the `moveTo` is issued before the
reset check that runs inside `arc`. -/
def circle (tau radius : ℚ) (s : DState) : DState :=
  let s1 := emit s (Cmd.moveTo (s.pos.x + radius) s.pos.y)
  let s2 := arc radius 0 tau false s1
  { s2 with posStart := none }

/-- `ellipse(radiusX, radiusY, rotation, startAngle, endAngle, anticlockwise)`
with `qcos`, `qsin` standing for the trigonometric functions and `tau` for the
full-turn constant. -/
def ellipse (tau : ℚ) (qcos qsin : ℚ → ℚ) (radiusX radiusY rotation startAngle endAngle : ℚ)
    (acw : Bool) (s : DState) : DState :=
  let s1 := checkPathClose s
  let x := s1.pos.x
  let y := s1.pos.y
  let s2 :=
    if startAngle = 0 ∧ endAngle = tau then
      emit s1 (Cmd.moveTo (x + radiusX * qcos rotation) (y + radiusX * qsin rotation))
    else s1
  let s3 := emit s2 (Cmd.ellipse x y radiusX radiusY rotation startAngle endAngle acw)
  { s3 with posDrawn := true }

/-- `arcTo(x, y, radius)`: store the deferred arc closure; no reset check. -/
def arcTo (cx cy radius : ℚ) (s : DState) : DState :=
  { s with drawCurve := some (CurveKind.arcToK cx cy radius) }

/-- `curve(x1, y1, x2?, y2?)`: store a cubic closure when both extra control
coordinates are given, else a quadratic one; no reset check. -/
def curve (x1 y1 : ℚ) (ox2 oy2 : Option ℚ) (s : DState) : DState :=
  match ox2, oy2 with
  | some a, some b => { s with drawCurve := some (CurveKind.cubicK x1 y1 a b) }
  | _, _ => { s with drawCurve := some (CurveKind.quadK x1 y1) }

/-- `split()`: reset check, flush, clear the subpath start. -/
def split (s : DState) : DState :=
  let s1 := checkPathClose s
  let s2 := advancePath none none s1
  { s2 with posStart := none }

/-- `join()`: reset check, flush, then re-add the current position via `xy`. -/
def join (s : DState) : DState :=
  let s1 := checkPathClose s
  let s2 := advancePath none none s1
  xy s2.pos.x s2.pos.y s2

/-- `stroke(size, color)`: style arguments, flush, queued text via
`strokeText`, the `stroke()` context call, then `pendingPathClose = true`. -/
def stroke (size : Option (ℚ ⊕ String)) (color : Option String) (s : DState) : DState :=
  let s1 :=
    match size with
    | some (Sum.inl w) =>
        let t := emit s (Cmd.setLineWidth w)
        if strTruthy color then emit t (Cmd.setStrokeStyle (color.getD "")) else t
    | some (Sum.inr c) => if c != "" then emit s (Cmd.setStrokeStyle c) else s
    | none => s
  let s2 := advancePath none none s1
  let s3 := s2.pendingText.foldl
    (fun t e => emit (emit t (Cmd.assignStyle e.2.2)) (Cmd.strokeText e.1 e.2.1.x e.2.1.y)) s2
  let s4 := emit s3 Cmd.stroke
  { s4 with pendingPathClose := true }

/-- `fill(color, fillrule)`: optional fill style, flush, queued text via
`fillText`, the `fill(rule)` context call, then `pendingPathClose = true`. -/
def fill (color : Option String) (fillrule : Option String) (s : DState) : DState :=
  let s1 := if strTruthy color then emit s (Cmd.setFillStyle (color.getD "")) else s
  let s2 := advancePath none none s1
  let s3 := s2.pendingText.foldl
    (fun t e => emit (emit t (Cmd.assignStyle e.2.2)) (Cmd.fillText e.1 e.2.1.x e.2.1.y)) s2
  let s4 := emit s3 (Cmd.fill fillrule)
  { s4 with pendingPathClose := true }

/-- `text(str, alignment, baseline)`: reset check, mutate `textStyle` with
defaults, queue the string with copies of the position and style, mark the
position drawn. -/
def text (str : String) (alignment baseline : Option String) (s : DState) : DState :=
  let s1 := checkPathClose s
  let st : TextStyle :=
    { s1.textStyle with
      textAlign := some (orDefault alignment "start")
      textBaseline := some (orDefault baseline "alphabetic") }
  let s2 := { s1 with textStyle := st, pendingText := s1.pendingText ++ [(str, s1.pos, st)] }
  { s2 with posDrawn := true }

/-- `font(font)`: update the text style only. -/
def font (f : String) (s : DState) : DState :=
  { s with textStyle := { s.textStyle with font := some f } }

/-- Run a list of points through `xy` in order. -/
def xys (ps : List (ℚ × ℚ)) (s : DState) : DState :=
  ps.foldl (fun t p => xy p.1 p.2 t) s

/-- The commands a call issues: the part of the log added beyond `s.out`. -/
def emitted (f : DState → DState) (s : DState) : List Cmd :=
  (f s).out.drop s.out.length

/-- Recognizer for line commands. -/
def isLineCmd : Cmd → Bool
  | .lineTo _ _ => true
  | _ => false

/-- Recognizer for quadratic curve commands. -/
def isQuadCmd : Cmd → Bool
  | .quadraticCurveTo _ _ _ _ => true
  | _ => false

/-- Recognizer for `fillText` commands. -/
def isFillTextCmd : Cmd → Bool
  | .fillText _ _ _ => true
  | _ => false

/-- The pair of commands emitted for each queued text entry at paint time:
a style assignment followed by the text command built by `g`. -/
def renderPairs (f g : (String × Pos × TextStyle) → Cmd) :
    List (String × Pos × TextStyle) → List Cmd
  | [] => []
  | e :: l => f e :: g e :: renderPairs f g l

/-- The surface commands `stroke()` issues for the queued text. -/
def strokeRender (l : List (String × Pos × TextStyle)) : List Cmd :=
  renderPairs (fun e => Cmd.assignStyle e.2.2) (fun e => Cmd.strokeText e.1 e.2.1.x e.2.1.y) l

/-- The surface commands `fill()` issues for the queued text. -/
def fillRender (l : List (String × Pos × TextStyle)) : List Cmd :=
  renderPairs (fun e => Cmd.assignStyle e.2.2) (fun e => Cmd.fillText e.1 e.2.1.x e.2.1.y) l

section ProofSupport

variable {s : DState}

lemma emitted_of_append {f : DState → DState} {s : DState} {δ : List Cmd}
    (h : (f s).out = s.out ++ δ) : emitted f s = δ := by
  simp [emitted, h]

lemma foldl_emitPair (f g : (String × Pos × TextStyle) → Cmd) :
    ∀ (l : List (String × Pos × TextStyle)) (s : DState),
      l.foldl (fun t e => emit (emit t (f e)) (g e)) s
        = { s with out := s.out ++ renderPairs f g l }
  | [], s => by simp [renderPairs]
  | e :: l, s => by
      rw [List.foldl_cons, foldl_emitPair f g l]
      simp [emit, renderPairs]

lemma checkPathClose_true (h : s.pendingPathClose = true) :
    checkPathClose s
      = { s with pendingPathClose := false, pendingText := [], posStart := none,
                 out := s.out ++ [Cmd.beginPath] } := by
  simp [checkPathClose, emit, h]

lemma checkPathClose_false (h : s.pendingPathClose = false) :
    checkPathClose s = s := by
  simp [checkPathClose, h]

lemma advancePath_some_of_drawn (a b : ℚ) (h : s.posDrawn = true) :
    advancePath (some a) (some b) s = { s with pos := ⟨a, b⟩, posDrawn := false } := by
  simp [advancePath, h]

lemma advancePath_some_of_open (a b : ℚ) {q : Pos} (h : s.posDrawn = false)
    (h2 : s.posStart = some q) :
    advancePath (some a) (some b) s
      = { s with pos := ⟨a, b⟩, posDrawn := false,
                 out := s.out ++ [Cmd.lineTo s.pos.x s.pos.y] } := by
  simp [advancePath, h, h2, emit]

lemma advancePath_some_of_closed (a b : ℚ) (h : s.posDrawn = false)
    (h2 : s.posStart = none) :
    advancePath (some a) (some b) s
      = { s with pos := ⟨a, b⟩, posDrawn := false, posStart := some s.pos,
                 out := s.out ++ [Cmd.moveTo s.pos.x s.pos.y] } := by
  simp [advancePath, h, h2, emit]

lemma advancePath_none_of_drawn (h : s.posDrawn = true) :
    advancePath none none s = s := by
  cases s with
  | mk p pd ps pt ts pc dc o =>
      dsimp at h
      subst h
      simp [advancePath]

lemma advancePath_none_of_open {q : Pos} (h : s.posDrawn = false)
    (h2 : s.posStart = some q) :
    advancePath none none s
      = { s with posDrawn := true, out := s.out ++ [Cmd.lineTo s.pos.x s.pos.y] } := by
  simp [advancePath, h, h2, emit]

lemma advancePath_none_of_closed (h : s.posDrawn = false) (h2 : s.posStart = none) :
    advancePath none none s
      = { s with posDrawn := true, posStart := some s.pos,
                 out := s.out ++ [Cmd.moveTo s.pos.x s.pos.y] } := by
  simp [advancePath, h, h2, emit]

lemma stroke_none_eq (t : DState) :
    stroke none none t
      = { advancePath none none t with
          pendingPathClose := true,
          out := (advancePath none none t).out ++ strokeRender t.pendingText ++ [Cmd.stroke] } := by
  have hpt : (advancePath none none t).pendingText = t.pendingText := by
    unfold advancePath
    cases h : t.posDrawn <;> cases h2 : t.posStart <;> simp [h, h2, emit]
  simp only [stroke]
  rw [foldl_emitPair (fun e => Cmd.assignStyle e.2.2)
      (fun e => Cmd.strokeText e.1 e.2.1.x e.2.1.y), hpt]
  simp [emit, strokeRender]

lemma fill_none_eq (t : DState) :
    fill none none t
      = { advancePath none none t with
          pendingPathClose := true,
          out := (advancePath none none t).out ++ fillRender t.pendingText ++ [Cmd.fill none] } := by
  have hpt : (advancePath none none t).pendingText = t.pendingText := by
    unfold advancePath
    cases h : t.posDrawn <;> cases h2 : t.posStart <;> simp [h, h2, emit]
  simp only [fill, strTruthy, Bool.false_eq_true, if_false]
  rw [foldl_emitPair (fun e => Cmd.assignStyle e.2.2)
      (fun e => Cmd.fillText e.1 e.2.1.x e.2.1.y), hpt]
  simp [emit, fillRender]

section MoreSupport

variable {s t : DState}

lemma advancePath_drawCurve (ox oy : Option ℚ) (s : DState) :
    (advancePath ox oy s).drawCurve = s.drawCurve := by
  unfold advancePath
  cases ox <;> cases oy <;> cases h : s.posDrawn <;> cases h2 : s.posStart <;>
    simp [h, h2, emit]

lemma advancePath_pendingPathClose (ox oy : Option ℚ) (s : DState) :
    (advancePath ox oy s).pendingPathClose = s.pendingPathClose := by
  unfold advancePath
  cases ox <;> cases oy <;> cases h : s.posDrawn <;> cases h2 : s.posStart <;>
    simp [h, h2, emit]

lemma advancePath_pendingText (ox oy : Option ℚ) (s : DState) :
    (advancePath ox oy s).pendingText = s.pendingText := by
  unfold advancePath
  cases ox <;> cases oy <;> cases h : s.posDrawn <;> cases h2 : s.posStart <;>
    simp [h, h2, emit]

lemma advancePath_textStyle (ox oy : Option ℚ) (s : DState) :
    (advancePath ox oy s).textStyle = s.textStyle := by
  unfold advancePath
  cases ox <;> cases oy <;> cases h : s.posDrawn <;> cases h2 : s.posStart <;>
    simp [h, h2, emit]

lemma advancePath_none_pos (s : DState) : (advancePath none none s).pos = s.pos := by
  unfold advancePath
  cases h : s.posDrawn <;> cases h2 : s.posStart <;> simp [h, h2, emit]

lemma advancePath_none_posDrawn (s : DState) : (advancePath none none s).posDrawn = true := by
  unfold advancePath
  cases h : s.posDrawn <;> cases h2 : s.posStart <;> simp [h, h2, emit]

lemma xy_drawCurve (a b : ℚ) (s : DState) : (xy a b s).drawCurve = none := by
  unfold xy
  cases h : (advancePath (some a) (some b) (checkPathClose s)).drawCurve <;> simp [h]

lemma stroke_none_fields (t : DState) :
    (stroke none none t).pendingPathClose = true ∧
    (stroke none none t).posDrawn = true ∧
    (stroke none none t).drawCurve = t.drawCurve ∧
    (stroke none none t).pos = t.pos ∧
    (stroke none none t).pendingText = t.pendingText := by
  rw [stroke_none_eq]
  exact ⟨rfl, advancePath_none_posDrawn t, advancePath_drawCurve none none t,
    advancePath_none_pos t, advancePath_pendingText none none t⟩

lemma fill_none_fields (t : DState) :
    (fill none none t).pendingPathClose = true ∧
    (fill none none t).posDrawn = true ∧
    (fill none none t).drawCurve = t.drawCurve ∧
    (fill none none t).pos = t.pos ∧
    (fill none none t).pendingText = t.pendingText := by
  rw [fill_none_eq]
  exact ⟨rfl, advancePath_none_posDrawn t, advancePath_drawCurve none none t,
    advancePath_none_pos t, advancePath_pendingText none none t⟩

lemma paint_then_xy (hclose : t.pendingPathClose = true) (hdrawn : t.posDrawn = true)
    (hcurve : t.drawCurve = none) (b1 b2 : ℚ) :
    xy b1 b2 t
      = { t with pendingPathClose := false, pendingText := [], posStart := none,
                 pos := ⟨b1, b2⟩, posDrawn := false, out := t.out ++ [Cmd.beginPath] } := by
  cases t with
  | mk p pd ps pt ts pc dc o =>
      dsimp at hclose hdrawn hcurve
      subst hclose hdrawn hcurve
      simp [xy, checkPathClose, advancePath, emit]

lemma fresh_then_xy (hclose : t.pendingPathClose = false) (hdrawn : t.posDrawn = false)
    (hstart : t.posStart = none) (hcurve : t.drawCurve = none) (c1 c2 : ℚ) :
    xy c1 c2 t
      = { t with pos := ⟨c1, c2⟩, posDrawn := false, posStart := some t.pos,
                 out := t.out ++ [Cmd.moveTo t.pos.x t.pos.y] } := by
  cases t with
  | mk p pd ps pt ts pc dc o =>
      dsimp at hclose hdrawn hstart hcurve
      subst hclose hdrawn hstart hcurve
      simp [xy, checkPathClose, advancePath, emit]

lemma open_then_xy {q : Pos} (hclose : t.pendingPathClose = false) (hdrawn : t.posDrawn = false)
    (hstart : t.posStart = some q) (hcurve : t.drawCurve = none) (c1 c2 : ℚ) :
    xy c1 c2 t
      = { t with pos := ⟨c1, c2⟩, posDrawn := false,
                 out := t.out ++ [Cmd.lineTo t.pos.x t.pos.y] } := by
  cases t with
  | mk p pd ps pt ts pc dc o =>
      dsimp at hclose hdrawn hstart hcurve
      subst hclose hdrawn hstart hcurve
      simp [xy, checkPathClose, advancePath, emit]

end MoreSupport

end ProofSupport

section PaintSupport

lemma foldl_emitPair2 (f g : (String × Pos × TextStyle) → Cmd) :
    ∀ (l : List (String × Pos × TextStyle)) (s : DState),
      l.foldl (fun t e => { t with out := t.out ++ [f e, g e] }) s
        = { s with out := s.out ++ renderPairs f g l }
  | [], s => by simp [renderPairs]
  | e :: l, s => by
      rw [List.foldl_cons, foldl_emitPair2 f g l]
      simp [renderPairs]

lemma advancePath_none_out (s : DState) :
    (advancePath none none s).out
      = s.out ++ (if s.posDrawn = true then []
          else match s.posStart with
            | none => [Cmd.moveTo s.pos.x s.pos.y]
            | some _ => [Cmd.lineTo s.pos.x s.pos.y]) := by
  unfold advancePath
  cases h : s.posDrawn <;> cases h2 : s.posStart <;> simp [h, h2, emit]

lemma stroke_pendingText (osz : Option (ℚ ⊕ String)) (oc : Option String) (s : DState) :
    (stroke osz oc s).pendingText = s.pendingText := by
  have hfold := foldl_emitPair (fun e => Cmd.assignStyle e.2.2)
    (fun e => Cmd.strokeText e.1 e.2.1.x e.2.1.y)
  have hfold2 := foldl_emitPair2 (fun e => Cmd.assignStyle e.2.2)
    (fun e => Cmd.strokeText e.1 e.2.1.x e.2.1.y)
  cases osz with
  | none => simp [stroke, hfold, hfold2, advancePath_pendingText, emit]
  | some v =>
      cases v with
      | inl w =>
          by_cases hc : strTruthy oc <;>
            simp [stroke, hfold, hfold2, advancePath_pendingText, emit, hc]
      | inr c =>
          by_cases hc : c = "" <;>
            simp [stroke, hfold, hfold2, advancePath_pendingText, emit, hc]

lemma fill_pendingText (oc orl : Option String) (s : DState) :
    (fill oc orl s).pendingText = s.pendingText := by
  have hfold := foldl_emitPair (fun e => Cmd.assignStyle e.2.2)
    (fun e => Cmd.fillText e.1 e.2.1.x e.2.1.y)
  have hfold2 := foldl_emitPair2 (fun e => Cmd.assignStyle e.2.2)
    (fun e => Cmd.fillText e.1 e.2.1.x e.2.1.y)
  by_cases hc : strTruthy oc = true <;>
    simp [fill, hfold, hfold2, advancePath_pendingText, emit, hc]

lemma filter_renderPairs_fillText :
    ∀ l : List (String × Pos × TextStyle),
      (renderPairs (fun e => Cmd.assignStyle e.2.2)
          (fun e => Cmd.fillText e.1 e.2.1.x e.2.1.y) l).filter isFillTextCmd
        = l.map (fun e => Cmd.fillText e.1 e.2.1.x e.2.1.y)
  | [] => by simp [renderPairs]
  | e :: l => by
      simp [renderPairs, isFillTextCmd, filter_renderPairs_fillText l]

lemma fill_renders (s : DState) :
    (emitted (fill none none) s).filter isFillTextCmd
      = s.pendingText.map (fun e => Cmd.fillText e.1 e.2.1.x e.2.1.y) := by
  have hout : (fill none none s).out
      = s.out ++ ((if s.posDrawn = true then []
          else match s.posStart with
            | none => [Cmd.moveTo s.pos.x s.pos.y]
            | some _ => [Cmd.lineTo s.pos.x s.pos.y])
          ++ (fillRender s.pendingText ++ [Cmd.fill none])) := by
    rw [fill_none_eq s]
    dsimp only
    rw [advancePath_none_out]
    simp
  rw [emitted_of_append hout]
  simp only [List.filter_append, fillRender, filter_renderPairs_fillText]
  cases h : s.posDrawn <;> cases h2 : s.posStart <;>
    simp [h, h2, isFillTextCmd]

end PaintSupport

/-- C3: the internal point primitive `_advancePath` behaves as specified: if
`posDrawn` is false, the stored `pos` is first pushed to the Surface — as a
move when `posStart` is none (which also sets `posStart` to `pos`), otherwise
as a line; then, if both coordinates are given, `pos` becomes `{x, y}` with
`posDrawn` set to false, and if either is omitted, `posDrawn` is set to true
with `pos` unchanged. -/
theorem c3_advancePath_spec (s : DState) (ox oy : Option ℚ) :
    (s.posDrawn = false → s.posStart = none →
      (advancePath ox oy s).out = s.out ++ [Cmd.moveTo s.pos.x s.pos.y] ∧
      (advancePath ox oy s).posStart = some s.pos) ∧
    (s.posDrawn = false → ∀ q, s.posStart = some q →
      (advancePath ox oy s).out = s.out ++ [Cmd.lineTo s.pos.x s.pos.y] ∧
      (advancePath ox oy s).posStart = some q) ∧
    (s.posDrawn = true →
      (advancePath ox oy s).out = s.out ∧ (advancePath ox oy s).posStart = s.posStart) ∧
    (∀ a b, ox = some a → oy = some b →
      (advancePath ox oy s).pos = ⟨a, b⟩ ∧ (advancePath ox oy s).posDrawn = false) ∧
    ((ox = none ∨ oy = none) →
      (advancePath ox oy s).posDrawn = true ∧ (advancePath ox oy s).pos = s.pos) := by
  cases ox <;> cases oy <;>
    cases h : s.posDrawn <;> cases h2 : s.posStart <;>
      simp [advancePath, emit, h, h2]

/-- Witness for C3 at a concrete input. -/
theorem c3_witness :
    (advancePath (some 3) (some 4) initState).pos = ⟨3, 4⟩ ∧
    (advancePath (some 3) (some 4) initState).posDrawn = false :=
  (c3_advancePath_spec initState (some 3) (some 4)).2.2.2.1 3 4 rfl rfl

/-- C5: after any `stroke()` or `fill()`, the next point-adding call `xy(B)`
issues exactly one begin-new-path command (and nothing else), and the point B
is subsequently emitted as a move — by the flush inside the following
point-adding call — not as a line from the pre-paint position.  Stated for the
scenario: draw A, paint, draw B, draw C, from an arbitrary state. -/
theorem c5_paint_reset (s : DState) (a1 a2 b1 b2 c1 c2 : ℚ) :
    emitted (xy b1 b2) (stroke none none (xy a1 a2 s)) = [Cmd.beginPath] ∧
    emitted (xy c1 c2) (xy b1 b2 (stroke none none (xy a1 a2 s))) = [Cmd.moveTo b1 b2] ∧
    emitted (xy b1 b2) (fill none none (xy a1 a2 s)) = [Cmd.beginPath] ∧
    emitted (xy c1 c2) (xy b1 b2 (fill none none (xy a1 a2 s))) = [Cmd.moveTo b1 b2] := by
  obtain ⟨hs1, hs2, hs3, _, _⟩ := stroke_none_fields (xy a1 a2 s)
  obtain ⟨hf1, hf2, hf3, _, _⟩ := fill_none_fields (xy a1 a2 s)
  have hc : (xy a1 a2 s).drawCurve = none := xy_drawCurve a1 a2 s
  have hxs := paint_then_xy hs1 hs2 (hs3.trans hc) b1 b2
  have hxf := paint_then_xy hf1 hf2 (hf3.trans hc) b1 b2
  refine ⟨emitted_of_append (by rw [hxs]), ?_, emitted_of_append (by rw [hxf]), ?_⟩
  · have h2 := fresh_then_xy (t := xy b1 b2 (stroke none none (xy a1 a2 s)))
      (by rw [hxs]) (by rw [hxs]) (by rw [hxs]) (by rw [hxs]; exact hs3.trans hc) c1 c2
    refine emitted_of_append ?_
    rw [h2]
    simp [hxs]
  · have h2 := fresh_then_xy (t := xy b1 b2 (fill none none (xy a1 a2 s)))
      (by rw [hxf]) (by rw [hxf]) (by rw [hxf]) (by rw [hxf]; exact hf3.trans hc) c1 c2
    refine emitted_of_append ?_
    rw [h2]
    simp [hxf]

/-- C1 (amended): when `pendingPathClose` is true at the call, every
path-mutating public operation except `circle` issues begin-new-path as its
first Surface command; `circle` instead issues a `moveTo` first and the
begin-new-path (performed by its inner `arc` call) only second. -/
theorem c1_reset_first (s : DState) (h : s.pendingPathClose = true)
    (a b w hgt sz r a1 a2 rx ry rot sa ea tau : ℚ) (ctr acw : Bool) (qcos qsin : ℚ → ℚ) :
    (emitted (xy a b) s).head? = some Cmd.beginPath ∧
    (emitted (rect w hgt ctr) s).head? = some Cmd.beginPath ∧
    (emitted (square sz ctr) s).head? = some Cmd.beginPath ∧
    (emitted (arc r a1 a2 acw) s).head? = some Cmd.beginPath ∧
    (emitted (ellipse tau qcos qsin rx ry rot sa ea acw) s).head? = some Cmd.beginPath ∧
    (emitted close s).head? = some Cmd.beginPath ∧
    (emitted split s).head? = some Cmd.beginPath ∧
    (emitted join s).head? = some Cmd.beginPath ∧
    emitted (circle tau r) s
      = [Cmd.moveTo (s.pos.x + r) s.pos.y, Cmd.beginPath,
         Cmd.arc s.pos.x s.pos.y r 0 tau false] := by
  cases s with
  | mk p pd ps pt ts pc dc o =>
      dsimp at h
      subst h
      cases pd <;> cases ps <;> cases dc <;> by_cases hc : sa = 0 ∧ ea = tau <;>
        simp [emitted, xy, rect, square, arc, ellipse, close, split, join, circle,
          checkPathClose, advancePath, emit, runCurve, List.drop_left, hc]

/-- Witness for C1 at a concrete input. -/
theorem c1_witness :
    (emitted (xy 1 2) (stroke none none initState)).head? = some Cmd.beginPath :=
  (c1_reset_first (stroke none none initState) (by decide)
    1 2 3 4 5 6 7 8 9 10 11 12 13 628 false false id id).1

/-- C1 counterexample: with a paint pending, `circle()` issues its `moveTo`
before the begin-new-path that its inner `arc` call performs, so the first
command it issues is not begin-new-path. -/
theorem c1_circle_counterexample :
    emitted (circle 628 5) (stroke none none initState)
      = [Cmd.moveTo 5 0, Cmd.beginPath, Cmd.arc 0 0 5 0 628 false] ∧
    (emitted (circle 628 5) (stroke none none initState)).head? ≠ some Cmd.beginPath := by
  constructor <;>
    simp [emitted, circle, arc, stroke, checkPathClose, advancePath, emit, initState]

/-- C2 counterexample: in a state with no pending deferred curve but an
uncommitted position inside an open subpath (here after `xy(0,0); xy(1,1)`),
`curve(3,3)` followed by `xy(5,5)` emits a line command (the flush of the
pre-curve position) in addition to the quadratic curve. -/
theorem c2_counterexample :
    emitted (fun t => xy 5 5 (curve 3 3 none none t)) (xys [(0, 0), (1, 1)] initState)
      = [Cmd.lineTo 1 1, Cmd.quadraticCurveTo 3 3 5 5] ∧
    Cmd.lineTo 1 1 ∈
      emitted (fun t => xy 5 5 (curve 3 3 none none t)) (xys [(0, 0), (1, 1)] initState) := by
  decide

/-- C4 counterexample: when the last destination already equals the start
point, `close()` still emits the trailing line back to the start (the line
appears twice: once as the flush of the final point and once as the return
line), contradicting the claimed no-trailing-line case. -/
theorem c4_counterexample :
    (close (xys [(0, 0), (1, 1), (0, 0)] initState)).out
      = [Cmd.moveTo 0 0, Cmd.lineTo 1 1, Cmd.lineTo 0 0, Cmd.lineTo 0 0, Cmd.closePath] ∧
    (close (xys [(0, 0), (1, 1), (0, 0)] initState)).out
      ≠ [Cmd.moveTo 0 0, Cmd.lineTo 1 1, Cmd.lineTo 0 0, Cmd.closePath] := by
  decide

/-- C6 counterexample: a deferred curve set by `curve` is carried across
`split()`, `rect()` and a `close()` with no open subpath — after each call
`drawCurve` is still set, contradicting the claim that it is never carried
across such calls. -/
theorem c6_counterexample :
    (split (curve 1 1 none none initState)).drawCurve = some (CurveKind.quadK 1 1) ∧
    (rect 2 2 false (curve 1 1 none none initState)).drawCurve = some (CurveKind.quadK 1 1) ∧
    (close (curve 1 1 none none initState)).drawCurve = some (CurveKind.quadK 1 1) := by
  decide

/-- C7: `split()` followed by a point-adding call emits nothing at that call
and the new point is later flushed as a move opening a disconnected subpath
(never a line connecting the old and new points); `join()` followed by a
point-adding call puts the path at the pre-join position (the call flushes a
line — or a move when no subpath was open — ending there) and the new point is
then flushed as a line starting at that pre-join position, even when the new
point equals it. -/
theorem c7_split_join (s : DState) (b1 b2 : ℚ) (h : s.drawCurve = none) :
    emitted (xy b1 b2) (split s) = [] ∧
    emitted split (xy b1 b2 (split s)) = [Cmd.moveTo b1 b2] ∧
    (emitted (xy b1 b2) (join s) = [Cmd.lineTo s.pos.x s.pos.y] ∨
     emitted (xy b1 b2) (join s) = [Cmd.moveTo s.pos.x s.pos.y]) ∧
    emitted split (xy b1 b2 (join s)) = [Cmd.lineTo b1 b2] := by
  cases s with
  | mk p pd ps pt ts pc dc o =>
      dsimp at h
      subst h
      cases pd <;> cases ps <;> cases pc <;>
        simp [emitted, xy, split, join, checkPathClose, advancePath, emit, runCurve,
          List.drop_left, List.drop_append]

/-- Witness for C7 at a concrete input. -/
theorem c7_witness :
    emitted (xy 4 4) (split (xy 1 2 initState)) = [] ∧
    emitted split (xy 4 4 (split (xy 1 2 initState))) = [Cmd.moveTo 4 4] ∧
    (emitted (xy 4 4) (join (xy 1 2 initState)) = [Cmd.lineTo 1 2] ∨
     emitted (xy 4 4) (join (xy 1 2 initState)) = [Cmd.moveTo 1 2]) ∧
    emitted split (xy 4 4 (join (xy 1 2 initState))) = [Cmd.lineTo 4 4] :=
  c7_split_join (xy 1 2 initState) 4 4 (by decide)

/-- C2 (amended): with no pending deferred curve and a committed position (or
no open subpath) at the call, `curve(x1,y1)` followed by `xy(x2,y2)` emits
exactly one quadratic-curve command, with control `(x1,y1)` and destination
`(x2,y2)`, and zero line commands; without that proviso the flush of the
uncommitted pre-curve position emits a line during the transition. -/
theorem c2_deferred_quadratic (s : DState) (x1 y1 x2 y2 : ℚ)
    (hcurve : s.drawCurve = none) (hready : s.posDrawn = true ∨ s.posStart = none) :
    (emitted (fun t => xy x2 y2 (curve x1 y1 none none t)) s).filter isQuadCmd
      = [Cmd.quadraticCurveTo x1 y1 x2 y2] ∧
    (emitted (fun t => xy x2 y2 (curve x1 y1 none none t)) s).filter isLineCmd = [] := by
  cases s with
  | mk p pd ps pt ts pc dc o =>
      dsimp at hcurve hready
      subst hcurve
      rcases hready with hd | hs
      · subst hd
        cases ps <;> cases pc <;>
          simp [emitted, xy, curve, checkPathClose, advancePath, emit, runCurve,
            isQuadCmd, isLineCmd, List.drop_left]
      · subst hs
        cases pd <;> cases pc <;>
          simp [emitted, xy, curve, checkPathClose, advancePath, emit, runCurve,
            isQuadCmd, isLineCmd, List.drop_left]

/-- Witness for C2 at a concrete input. -/
theorem c2_witness :
    (emitted (fun t => xy 2 2 (curve 1 1 none none t)) initState).filter isQuadCmd
      = [Cmd.quadraticCurveTo 1 1 2 2] ∧
    (emitted (fun t => xy 2 2 (curve 1 1 none none t)) initState).filter isLineCmd = [] :=
  c2_deferred_quadratic initState 1 1 2 2 (by decide) (Or.inl (by decide))

/-- C6 (amended): a stored deferred curve is consumed by exactly the next
coordinate point-adding call — which emits the deferred curve command ending
at the new point as its last command and clears `drawCurve` — but it is
carried (left set) across `split()`, `rect()`, and a `close()` whose state has
a committed position and no open subpath. -/
theorem c6_deferred_lifetime (s : DState) (k : CurveKind) (a b w hgt : ℚ) (ctr : Bool)
    (h : s.drawCurve = some k) :
    (xy a b s).drawCurve = none ∧
    (emitted (xy a b) s).getLast? = some (runCurve k a b) ∧
    (split s).drawCurve = some k ∧
    (rect w hgt ctr s).drawCurve = some k ∧
    (s.posDrawn = true → s.posStart = none → (close s).drawCurve = some k) := by
  cases s with
  | mk p pd ps pt ts pc dc o =>
      dsimp at h
      subst h
      cases pd <;> cases ps <;> cases pc <;>
        simp [emitted, xy, split, rect, close, checkPathClose, advancePath, emit,
          runCurve, List.drop_left]

/-- Witness for C6 at a concrete input. -/
theorem c6_witness :
    (xy 2 3 (curve 1 1 none none initState)).drawCurve = none ∧
    (emitted (xy 2 3) (curve 1 1 none none initState)).getLast?
      = some (runCurve (CurveKind.quadK 1 1) 2 3) ∧
    (split (curve 1 1 none none initState)).drawCurve = some (CurveKind.quadK 1 1) ∧
    (rect 4 4 false (curve 1 1 none none initState)).drawCurve
      = some (CurveKind.quadK 1 1) ∧
    ((curve 1 1 none none initState).posDrawn = true →
      (curve 1 1 none none initState).posStart = none →
      (close (curve 1 1 none none initState)).drawCurve = some (CurveKind.quadK 1 1)) :=
  c6_deferred_lifetime (curve 1 1 none none initState) (CurveKind.quadK 1 1)
    2 3 4 4 false (by decide)

/-- C9: `pendingText` is cleared exactly when a new path is lazily started
(the `pendingPathClose` reset inside `_checkPathClose`) and at no other point:
`stroke()` and `fill()` leave it unchanged for any style arguments, every
path-mutating operation preserves it when no reset is pending (`text` only
appends its new entry), and two consecutive `fill()` calls each render every
queued entry once. -/
theorem c9_pendingText_lifecycle (s : DState) (a b w hgt r a1 a2 tau : ℚ)
    (ctr acw : Bool) (str : String) (oal obl : Option String)
    (osz : Option (ℚ ⊕ String)) (oc oc2 orl : Option String) :
    (stroke osz oc s).pendingText = s.pendingText ∧
    (fill oc2 orl s).pendingText = s.pendingText ∧
    (s.pendingPathClose = true → (checkPathClose s).pendingText = []) ∧
    (s.pendingPathClose = false →
      (xy a b s).pendingText = s.pendingText ∧
      (close s).pendingText = s.pendingText ∧
      (split s).pendingText = s.pendingText ∧
      (join s).pendingText = s.pendingText ∧
      (rect w hgt ctr s).pendingText = s.pendingText ∧
      (arc r a1 a2 acw s).pendingText = s.pendingText ∧
      (circle tau r s).pendingText = s.pendingText ∧
      (text str oal obl s).pendingText
        = s.pendingText ++
          [(str, s.pos,
            { s.textStyle with textAlign := some (orDefault oal "start"),
                               textBaseline := some (orDefault obl "alphabetic") })]) ∧
    (emitted (fill none none) s).filter isFillTextCmd
      = s.pendingText.map (fun e => Cmd.fillText e.1 e.2.1.x e.2.1.y) ∧
    (emitted (fill none none) (fill none none s)).filter isFillTextCmd
      = s.pendingText.map (fun e => Cmd.fillText e.1 e.2.1.x e.2.1.y) := by
  refine ⟨stroke_pendingText osz oc s, fill_pendingText oc2 orl s, ?_, ?_,
    fill_renders s, ?_⟩
  · intro h
    simp [checkPathClose_true h]
  · intro h
    cases s with
    | mk p pd ps pt ts pc dc o =>
        dsimp at h
        subst h
        cases pd <;> cases ps <;> cases dc <;>
          simp [xy, close, split, join, rect, arc, circle, text, checkPathClose,
            advancePath, emit, runCurve]
  · rw [fill_renders (fill none none s), fill_pendingText none none s]

/-- Witness for C9 at a concrete input. -/
theorem c9_witness :
    (stroke none none (text "A" none none initState)).pendingText
      = (text "A" none none initState).pendingText ∧
    (emitted (fill none none) (text "A" none none initState)).filter isFillTextCmd
      = (text "A" none none initState).pendingText.map
          (fun e => Cmd.fillText e.1 e.2.1.x e.2.1.y) :=
  ⟨(c9_pendingText_lifecycle (text "A" none none initState)
      1 2 3 4 5 6 7 8 false false "B" none none none none none none).1,
   (c9_pendingText_lifecycle (text "A" none none initState)
      1 2 3 4 5 6 7 8 false false "B" none none none none none none).2.2.2.2.1⟩

/-- C8: two `text()` calls followed by `fill()` render both strings at the
positions and with the styles captured at each `text()` call, even though the
position and the font change in between (and again before the paint): the
`fill()` call emits exactly one flush command followed by the two snapshotted
style assignments and text commands and the final fill command. -/
theorem c8_text_snapshots (s : DState) (strA strB f : String)
    (a1 b1 a2 b2 : Option String) (p1 p2 q1 q2 : ℚ)
    (hpt : s.pendingText = []) :
    (emitted (fill none none)
        (xy q1 q2 (text strB a2 b2 (font f (xy p1 p2 (text strA a1 b1 s)))))).drop 1
      = [Cmd.assignStyle
           { s.textStyle with textAlign := some (orDefault a1 "start"),
                              textBaseline := some (orDefault b1 "alphabetic") },
         Cmd.fillText strA s.pos.x s.pos.y,
         Cmd.assignStyle
           { font := some f, textAlign := some (orDefault a2 "start"),
             textBaseline := some (orDefault b2 "alphabetic") },
         Cmd.fillText strB p1 p2,
         Cmd.fill none] ∧
    (emitted (fill none none)
        (xy q1 q2 (text strB a2 b2 (font f (xy p1 p2 (text strA a1 b1 s)))))).length
      = 6 := by
  cases s with
  | mk p pd ps pt ts pc dc o =>
      dsimp at hpt
      subst hpt
      cases pd <;> cases ps <;> cases pc <;> cases dc <;>
        simp [emitted, fill, text, font, xy, checkPathClose, advancePath, emit,
          runCurve, strTruthy, List.drop_left]

/-- Witness for C8 at a concrete input. -/
theorem c8_witness :
    (emitted (fill none none)
        (xy 7 8 (text "B" none none (font "9px serif" (xy 5 6 (text "A" none none
          initState)))))).drop 1
      = [Cmd.assignStyle
           { initState.textStyle with
             textAlign := some (orDefault none "start"),
             textBaseline := some (orDefault none "alphabetic") },
         Cmd.fillText "A" initState.pos.x initState.pos.y,
         Cmd.assignStyle
           { font := some "9px serif", textAlign := some (orDefault none "start"),
             textBaseline := some (orDefault none "alphabetic") },
         Cmd.fillText "B" 5 6,
         Cmd.fill none] ∧
    (emitted (fill none none)
        (xy 7 8 (text "B" none none (font "9px serif" (xy 5 6 (text "A" none none
          initState)))))).length = 6 :=
  c8_text_snapshots initState "A" "B" "9px serif" none none none none 5 6 7 8 rfl

/-- C10 (amended): after a point-adding call consumes a deferred curve, the
destination stays recorded as uncommitted (`posDrawn` false even though the
curve command already ended there), so the next flush emits one additional
path command at the curve's endpoint: a line when a subpath is open, but a
move when `posStart` is none — shown for flushes caused by `split()` and by a
subsequent point-adding call. -/
theorem c10_uncommitted_endpoint (s : DState) (k : CurveKind) (a b c d : ℚ)
    (h : s.drawCurve = some k) :
    (xy a b s).drawCurve = none ∧
    (xy a b s).posDrawn = false ∧
    (xy a b s).pos = ⟨a, b⟩ ∧
    (∀ q, (xy a b s).posStart = some q →
      emitted split (xy a b s) = [Cmd.lineTo a b] ∧
      emitted (xy c d) (xy a b s) = [Cmd.lineTo a b]) ∧
    ((xy a b s).posStart = none →
      emitted split (xy a b s) = [Cmd.moveTo a b] ∧
      emitted (xy c d) (xy a b s) = [Cmd.moveTo a b]) := by
  cases s with
  | mk p pd ps pt ts pc dc o =>
      dsimp at h
      subst h
      cases pd <;> cases ps <;> cases pc <;>
        simp [emitted, xy, split, checkPathClose, advancePath, emit, runCurve,
          List.drop_left, List.drop_append]

/-- Witness for C10 at a concrete input. -/
theorem c10_witness :
    (xy 2 3 (curve 1 1 none none initState)).drawCurve = none ∧
    emitted split (xy 2 3 (curve 1 1 none none initState)) = [Cmd.moveTo 2 3] :=
  ⟨(c10_uncommitted_endpoint (curve 1 1 none none initState) (CurveKind.quadK 1 1)
      2 3 4 5 (by decide)).1,
   ((c10_uncommitted_endpoint (curve 1 1 none none initState) (CurveKind.quadK 1 1)
      2 3 4 5 (by decide)).2.2.2.2 (by decide)).1⟩

/-- The line commands a run of point-adding calls flushes when the position
`cur` is pending inside an open subpath: one line per pending point, the last
point staying pending. -/
def lineCmds : Pos → List (ℚ × ℚ) → List Cmd
  | _, [] => []
  | cur, p :: rest => Cmd.lineTo cur.x cur.y :: lineCmds ⟨p.1, p.2⟩ rest

/-- The position left pending after a run of point-adding calls. -/
def lastPos : Pos → List (ℚ × ℚ) → Pos
  | cur, [] => cur
  | _, p :: rest => lastPos ⟨p.1, p.2⟩ rest

lemma xys_cons (p : ℚ × ℚ) (ps : List (ℚ × ℚ)) (s : DState) :
    xys (p :: ps) s = xys ps (xy p.1 p.2 s) := by
  simp [xys]

lemma xys_open :
    ∀ (ps : List (ℚ × ℚ)) (s : DState) (q : Pos),
      s.pendingPathClose = false → s.posDrawn = false → s.posStart = some q →
      s.drawCurve = none →
      xys ps s = { s with pos := lastPos s.pos ps, out := s.out ++ lineCmds s.pos ps }
  | [], s, q, _, _, _, _ => by
      simp [xys, lastPos, lineCmds]
  | p :: ps, s, q, hclose, hdrawn, hstart, hcurve => by
      rw [xys_cons, open_then_xy hclose hdrawn hstart hcurve]
      rw [xys_open ps _ q (by simpa using hclose) (by simp) (by simpa using hstart)
        (by simpa using hcurve)]
      simp [lastPos, lineCmds, hdrawn]

lemma cons_append_assoc {α : Type} (A : List α) (b : α) (C : List α) :
    A ++ b :: C = (A ++ [b]) ++ C := by
  simp

lemma lineCmds_concat :
    ∀ (rs : List (ℚ × ℚ)) (cur : Pos),
      lineCmds cur rs ++ [Cmd.lineTo (lastPos cur rs).x (lastPos cur rs).y]
        = Cmd.lineTo cur.x cur.y :: rs.map (fun v => Cmd.lineTo v.1 v.2)
  | [], cur => by simp [lineCmds, lastPos]
  | p :: rs, cur => by
      simp [lineCmds, lastPos, lineCmds_concat rs ⟨p.1, p.2⟩]

lemma close_open {s : DState} {q : Pos} (hclose : s.pendingPathClose = false)
    (hdrawn : s.posDrawn = false) (hstart : s.posStart = some q)
    (hcurve : s.drawCurve = none) :
    close s
      = { s with pos := q, posDrawn := true, posStart := none,
                 out := s.out ++ [Cmd.lineTo s.pos.x s.pos.y, Cmd.lineTo q.x q.y,
                   Cmd.closePath] } := by
  cases s with
  | mk p pd ps pt ts pc dc o =>
      dsimp at hclose hdrawn hstart hcurve
      subst hclose hdrawn hstart hcurve
      simp [close, xy, checkPathClose, advancePath, emit]

/-- C4 (amended): for any nonempty sequence of point-adding calls from the
initial state followed by `close()`, the emitted commands are exactly one
move to the first point, a line to each subsequent point, then always a
trailing line back to the first point — also when the last destination equals
the start, in which case the line to the start appears both as the flush of
the final point and as the return line — before the path-close command. -/
theorem c4_close_trace (p0 : ℚ × ℚ) (rest : List (ℚ × ℚ)) :
    (close (xys (p0 :: rest) initState)).out
      = Cmd.moveTo p0.1 p0.2
          :: (rest.map fun r => Cmd.lineTo r.1 r.2)
          ++ [Cmd.lineTo p0.1 p0.2, Cmd.closePath] := by
  rw [xys_cons]
  have h1 : xy p0.1 p0.2 initState
      = { pos := ⟨p0.1, p0.2⟩, posDrawn := false, posStart := none, pendingText := []
          textStyle := {}, pendingPathClose := false, drawCurve := none, out := [] } := rfl
  rw [h1]
  cases rest with
  | nil =>
      simp [xys, close, xy, checkPathClose, advancePath, emit]
  | cons r rs =>
      rw [xys_cons]
      rw [fresh_then_xy rfl rfl rfl rfl r.1 r.2]
      rw [xys_open rs _ ⟨p0.1, p0.2⟩ rfl rfl rfl rfl]
      rw [close_open rfl rfl rfl rfl]
      dsimp only
      rw [List.append_assoc, cons_append_assoc (lineCmds ⟨r.1, r.2⟩ rs),
        lineCmds_concat rs ⟨r.1, r.2⟩]
      simp

/-- C10 counterexample: from the initial state, `curve(1,1)` then `xy(2,3)`
then `stroke()` flushes the curve endpoint as a move (no subpath is open), not
as a line — no line command to the endpoint is ever emitted. -/
theorem c10_counterexample :
    (stroke none none (xy 2 3 (curve 1 1 none none initState))).out
      = [Cmd.quadraticCurveTo 1 1 2 3, Cmd.moveTo 2 3, Cmd.stroke] ∧
    Cmd.lineTo 2 3 ∉ (stroke none none (xy 2 3 (curve 1 1 none none initState))).out := by
  decide

end Zu
